import Mathlib

/-!
# libaudio — verification of the PCM transcoding core

A shallow embedding of the sample-format transcoding engine of the
`libaudio` repository (`pcm.c`, `audio.c`, `audio.h`) together with
proofs about the claims of its specification.

Conventions of the embedding:

* Machine integers are modelled as `Nat` / `Int` with explicit reduction
  modulo `2^w`.  `toIntW` is the value of a two's-complement `w`-bit
  cell; `toUIntW` is reduction into `[0, 2^w)`.
* On-disk data is a `List Nat` of bytes (each `< 256`).
* C `float` / `double` values are modelled as exact rationals; each
  arithmetic operation of the source is followed by correct rounding to
  binary32 (`f32round`) or binary64 (`f64round`) precision,
  round-to-nearest, ties-to-even, with gradual underflow.  Overflow to
  infinity and NaN payloads are outside the modelled range; every claim
  is settled on values where all intermediate results are finite.
* The byte-pattern view of a `float` (needed by the `union`-based
  `RFLE/RFBE/WFLE/WFBE` codec of `pcm.c`) is given by `f32enc` (value to
  IEEE-754 binary32 bit pattern) and `f32val` (finite pattern to value).
* The `read(2)` primitive on a plain stream holding `avail` more bytes
  returns `min requested avail` bytes (POSIX semantics without errors);
  an erroring primitive is modelled as `Option`/oracle where a claim
  needs it.
-/

namespace LibAudio

/-! ## Machine integer cells -/

/-- Two's-complement value of an 8-bit cell (C `int8_t` conversion). -/
def toInt8 (n : Int) : Int := (n + 128) % 256 - 128

/-- Two's-complement value of a 16-bit cell (C `int16_t` conversion). -/
def toInt16 (n : Int) : Int := (n + 32768) % 65536 - 32768

/-- Two's-complement value of a 32-bit cell (C `int32_t` conversion). -/
def toInt32 (n : Int) : Int := (n + 2147483648) % 4294967296 - 2147483648

/-- Reduction into an unsigned 8-bit cell (C `uint8_t` conversion). -/
def toUInt8 (n : Int) : Nat := (n % 256).toNat

/-- Reduction into an unsigned 16-bit cell (C `uint16_t` conversion). -/
def toUInt16 (n : Int) : Nat := (n % 65536).toNat

/-- Reduction into an unsigned 32-bit cell (C `uint32_t` conversion). -/
def toUInt32 (n : Int) : Nat := (n % 4294967296).toNat

/-! ## Byte-order codec (the `R16LE` … `W32BE` macros of `pcm.c`) -/

/-- `R16LE(p) = (p[0] << 0) | (p[1] << 8)`. -/
def r16le (b0 b1 : Nat) : Nat := b0 + 256 * b1

/-- `R16BE(p) = (p[1] << 0) | (p[0] << 8)`. -/
def r16be (b0 b1 : Nat) : Nat := b1 + 256 * b0

/-- `R32LE(p) = p[0] | p[1]<<8 | p[2]<<16 | p[3]<<24`. -/
def r32le (b0 b1 b2 b3 : Nat) : Nat :=
  b0 + 256 * b1 + 65536 * b2 + 16777216 * b3

/-- `R32BE(p) = p[3] | p[2]<<8 | p[1]<<16 | p[0]<<24`. -/
def r32be (b0 b1 b2 b3 : Nat) : Nat :=
  b3 + 256 * b2 + 65536 * b1 + 16777216 * b0

/-- `R32LE` applied to a 4-byte group given as a list. -/
def r32leL (bs : List Nat) : Nat :=
  r32le (bs.getD 0 0) (bs.getD 1 0) (bs.getD 2 0) (bs.getD 3 0)

/-- `W16LE(p,s)`: `uint16_t _s = s; p[0] = _s >> 0; p[1] = _s >> 8`. -/
def w16le (s : Int) : List Nat :=
  [toUInt16 s % 256, toUInt16 s / 256 % 256]

/-- `W16BE(p,s)`: `uint16_t _s = s; p[0] = _s >> 8; p[1] = _s >> 0`. -/
def w16be (s : Int) : List Nat :=
  [toUInt16 s / 256 % 256, toUInt16 s % 256]

/-- `W32LE` on an already-unsigned 32-bit pattern. -/
def w32leN (u : Nat) : List Nat :=
  [u % 256, u / 256 % 256, u / 65536 % 256, u / 16777216 % 256]

/-- `W32BE` on an already-unsigned 32-bit pattern. -/
def w32beN (u : Nat) : List Nat :=
  [u / 16777216 % 256, u / 65536 % 256, u / 256 % 256, u % 256]

/-- `W32LE(p,s)`: `uint32_t _s = s;` then the four byte stores. -/
def w32le (s : Int) : List Nat := w32leN (toUInt32 s)

/-- `W32BE(p,s)`: `uint32_t _s = s;` then the four byte stores. -/
def w32be (s : Int) : List Nat := w32beN (toUInt32 s)

example : r16le 0x34 0x12 = 0x1234 := by decide
example : w16le 0x1234 = [0x34, 0x12] := by decide
example : w32be 0x0A0B0C0D = [0x0A, 0x0B, 0x0C, 0x0D] := by decide
example : toInt8 0xFF = -1 := by decide
example : toInt16 (toUInt16 (-2)) = -2 := by decide

/-! ## Exact model of IEEE-754 binary32 / binary64 arithmetic

C `float` and `double` values are finite binary floating-point numbers,
modelled here as exact rationals.  Each C arithmetic operation or
conversion is the exact rational result followed by rounding to the
target precision (round-to-nearest, ties-to-even), the default rounding
of IEEE-754 honoured by the C implementations targeted by this code. -/

/-- Product of two rationals, written through `mkRat` so that the
kernel can evaluate it (`Rat.mul` is sealed against unfolding).  It is
the ordinary multiplication of `ℚ`; see `qmul_eq_mul`. -/
def qmul (a b : ℚ) : ℚ := mkRat (a.num * b.num) (a.den * b.den)

/-- Sum of two rationals through `mkRat`; ordinary addition of `ℚ`. -/
def qadd (a b : ℚ) : ℚ := mkRat (a.num * b.den + b.num * a.den) (a.den * b.den)

/-- Quotient of two rationals through `mkRat` (`0` for a zero divisor,
as for `Rat.div`); ordinary division of `ℚ`. -/
def qdiv (a b : ℚ) : ℚ := mkRat (a.num * b.den * b.num.sign) (a.den * b.num.natAbs)

/-- Number of halvings of `n` until it reaches `0` (with fuel);
`bitlenAux n n` is the bit length of `n`. -/
def bitlenAux : Nat → Nat → Nat
  | 0, _ => 0
  | _ + 1, 0 => 0
  | fuel + 1, n => bitlenAux fuel (n / 2) + 1

/-- Bit length of `n`: `0` for `0`, otherwise `log2 n + 1`. -/
def bitlen (n : Nat) : Nat := bitlenAux n n

/-- `2 ^ e` as a rational, for an integer exponent `e`. -/
def qpow2 : Int → ℚ
  | Int.ofNat n => mkRat ((2 : Int) ^ n) 1
  | Int.negSucc n => mkRat 1 (2 ^ (n + 1))

/-- Floor of a rational as an integer. -/
def qfloor (q : ℚ) : Int := Int.fdiv q.num q.den

/-- C-style truncation toward zero of a rational (float-to-int cast). -/
def ctrunc (q : ℚ) : Int := Int.tdiv q.num q.den

/-- `⌊log₂ q⌋` for `q > 0` (junk `0` otherwise), computed from the bit
lengths of numerator and denominator. -/
def floorLog2 (q : ℚ) : Int :=
  let e0 : Int := (bitlen q.num.toNat : Int) - bitlen q.den
  if qpow2 e0 ≤ q then e0 else e0 - 1

/-- Round `q` to the nearest multiple of `step`, ties to even. -/
def roundNE (step q : ℚ) : ℚ :=
  let n := qdiv q step
  let f := qfloor n
  let frac := qadd n (-(f : ℚ))
  if frac < mkRat 1 2 then qmul (f : ℚ) step
  else if mkRat 1 2 < frac then qmul ((f + 1 : Int) : ℚ) step
  else if f % 2 = 0 then qmul (f : ℚ) step
  else qmul ((f + 1 : Int) : ℚ) step

/-- Round to a binary floating-point format with `prec` mantissa bits
and smallest representable step `2 ^ emin` (gradual underflow). -/
def froundP (prec : Int) (emin : Int) (q : ℚ) : ℚ :=
  if q = 0 then 0
  else roundNE (qpow2 (max (floorLog2 |q| - (prec - 1)) emin)) q

/-- Correct rounding of an exact rational to IEEE-754 binary32
(C `float`): 24 mantissa bits, smallest subnormal `2 ^ (-149)`. -/
def f32round (q : ℚ) : ℚ := froundP 24 (-149) q

/-- Correct rounding of an exact rational to IEEE-754 binary64
(C `double`): 53 mantissa bits, smallest subnormal `2 ^ (-1074)`. -/
def f64round (q : ℚ) : ℚ := froundP 53 (-1074) q

/-- IEEE-754 binary32 bit pattern of (the binary32 rounding of) a
rational value.  Finite range only: values at or beyond `2^128` are not
given a pattern (the sources never produce them in the claims below). -/
def f32enc (q : ℚ) : Nat :=
  let r := f32round q
  if r = 0 then 0
  else
    let s : Nat := if r < 0 then 2 ^ 31 else 0
    let a : ℚ := |r|
    let e : Int := floorLog2 a
    if -126 ≤ e then
      s + (e + 127).toNat * 2 ^ 23 + ((qmul a (qpow2 (23 - e))).num.toNat - 2 ^ 23)
    else
      s + (qmul a (qpow2 149)).num.toNat

/-- Value of a finite IEEE-754 binary32 bit pattern (exponent field 255,
infinities and NaNs, is outside the modelled range). -/
def f32val (u : Nat) : ℚ :=
  let s : ℚ := if u / 2 ^ 31 % 2 = 1 then -1 else 1
  let e : Nat := u / 2 ^ 23 % 256
  let m : Nat := u % 2 ^ 23
  if e = 0 then qmul s (qmul (m : ℚ) (qpow2 (-149)))
  else qmul s (qmul ((2 ^ 23 + m : Nat) : ℚ) (qpow2 ((e : Int) - 150)))

example : bitlen 2147483647 = 31 := by decide
example : floorLog2 (mkRat 1 127) = -7 := by decide
example : f32round 2147483647 = 2147483648 := by decide
example : f32round (mkRat 1 2) = mkRat 1 2 := by decide
example : f32val 0x3F000000 = mkRat 1 2 := by decide
example : f32enc (mkRat 1 2) = 0x3F000000 := by decide
example : f32enc (f64round (mkRat 1 127)) = 0x3C010204 := by decide
example : ctrunc (mkRat (-127) 2) = -63 := by decide
example : f32val (f32enc (mkRat (-5) 32)) = mkRat (-5) 32 := by decide

/-! ## Integer sample conversions (`pcm.c`)

Each definition below is the per-sample conversion performed inside the
chunk loop of the `pcm.c` function of the same name: reads map the
on-disk byte group of one sample to the in-memory sample it stores,
writes map one in-memory sample to the byte group it emits.  The
surrounding chunked driver loop is modelled separately (`…_loop`). -/

/-- `pcm_read_s8_as_s8`: raw byte into an `int8_t` slot. -/
def pcm_read_s8_as_s8 (b : Nat) : Int := toInt8 b

/-- `pcm_read_s8_as_u8`: `samples[i] += 0x80` on the raw byte. -/
def pcm_read_s8_as_u8 (b : Nat) : Nat := toUInt8 (b + 0x80)

/-- `pcm_read_u8_as_u8`: raw byte into a `uint8_t` slot. -/
def pcm_read_u8_as_u8 (b : Nat) : Nat := b % 256

/-- `pcm_read_u8_as_s8`: `samples[i] -= 0x80` on the raw byte stored in
an `int8_t` slot. -/
def pcm_read_u8_as_s8 (b : Nat) : Int := toInt8 (toInt8 b - 0x80)

/-- `pcm_read_s8_as_s16`: `*samples++ = buf[i] << 8`. -/
def pcm_read_s8_as_s16 (b : Nat) : Int := toInt16 (toInt8 b * 2 ^ 8)

/-- `pcm_read_s8_as_s32`: `*samples++ = buf[i] << 24`. -/
def pcm_read_s8_as_s32 (b : Nat) : Int := toInt32 (toInt8 b * 2 ^ 24)

/-- `pcm_read_u8_as_u16`: `*samples++ = buf[i] << 8`. -/
def pcm_read_u8_as_u16 (b : Nat) : Nat := toUInt16 (b % 256 * 2 ^ 8)

/-- `pcm_read_u8_as_u32`: `*samples++ = buf[i] << 24`. -/
def pcm_read_u8_as_u32 (b : Nat) : Nat := toUInt32 (b % 256 * 2 ^ 24)

/-- `pcm_read_s16le_as_s16`: `*samples++ = (int16_t)R16LE(p)`. -/
def pcm_read_s16le_as_s16 (b0 b1 : Nat) : Int := toInt16 (r16le b0 b1)

/-- `pcm_read_s16be_as_s16`: `*samples++ = (int16_t)R16BE(p)`. -/
def pcm_read_s16be_as_s16 (b0 b1 : Nat) : Int := toInt16 (r16be b0 b1)

/-- `pcm_read_s16le_as_u16`: `*samples++ = ((int16_t)R16LE(p)) + 0x8000`. -/
def pcm_read_s16le_as_u16 (b0 b1 : Nat) : Nat :=
  toUInt16 (toInt16 (r16le b0 b1) + 0x8000)

/-- `pcm_read_u16le_as_s16`: `*samples++ = ((uint16_t)R16LE(p)) - 0x8000`. -/
def pcm_read_u16le_as_s16 (b0 b1 : Nat) : Int :=
  toInt16 ((toUInt16 (r16le b0 b1) : Int) - 0x8000)

/-- `pcm_read_u16le_as_u16`: `*samples++ = (uint16_t)R16LE(p)`. -/
def pcm_read_u16le_as_u16 (b0 b1 : Nat) : Nat := toUInt16 (r16le b0 b1)

/-- `pcm_read_s16le_as_s32`: `*samples++ = ((int16_t)R16LE(p)) << 16`. -/
def pcm_read_s16le_as_s32 (b0 b1 : Nat) : Int :=
  toInt32 (toInt16 (r16le b0 b1) * 2 ^ 16)

/-- `pcm_read_u16le_as_u32`: `*samples++ = ((uint16_t)R16LE(p)) << 16`. -/
def pcm_read_u16le_as_u32 (b0 b1 : Nat) : Nat :=
  toUInt32 (toUInt16 (r16le b0 b1) * 2 ^ 16)

/-- `pcm_read_s32le_as_s32`: `*samples++ = (int32_t)R32LE(p)`. -/
def pcm_read_s32le_as_s32 (b0 b1 b2 b3 : Nat) : Int := toInt32 (r32le b0 b1 b2 b3)

/-- `pcm_read_s32le_as_u32`: `*samples++ = ((int32_t)R32LE(p)) + 0x80000000`. -/
def pcm_read_s32le_as_u32 (b0 b1 b2 b3 : Nat) : Nat :=
  toUInt32 (toInt32 (r32le b0 b1 b2 b3) + 0x80000000)

/-- `pcm_read_u32le_as_u32`: `*samples++ = (uint32_t)R32LE(p)`. -/
def pcm_read_u32le_as_u32 (b0 b1 b2 b3 : Nat) : Nat := r32le b0 b1 b2 b3 % 2 ^ 32

/-- `pcm_write_u8_as_u8`: raw byte written unchanged. -/
def pcm_write_u8_as_u8 (u : Nat) : List Nat := [u % 256]

/-- `pcm_write_s16_as_s16le`: `W16LE(p, *samples++)`. -/
def pcm_write_s16_as_s16le (s : Int) : List Nat := w16le s

/-- `pcm_write_s16_as_s16be`: `W16BE(p, *samples++)`. -/
def pcm_write_s16_as_s16be (s : Int) : List Nat := w16be s

/-- `pcm_write_s8_as_s16le`: `W16LE(p, *samples++ << 8)`. -/
def pcm_write_s8_as_s16le (s : Int) : List Nat := w16le (s * 2 ^ 8)

/-- `pcm_write_u8_as_u16le`: `W16LE(p, *samples++ << 8)`. -/
def pcm_write_u8_as_u16le (u : Nat) : List Nat := w16le ((u % 256 : Nat) * 2 ^ 8)

/-- `pcm_write_s16_as_s32le`: `W32LE(p, *samples++ << 16)`. -/
def pcm_write_s16_as_s32le (s : Int) : List Nat := w32le (s * 2 ^ 16)

/-- `pcm_write_u16_as_u32le`: `W32LE(p, *samples++ << 16)`. -/
def pcm_write_u16_as_u32le (u : Nat) : List Nat := w32le ((u % 65536 : Nat) * 2 ^ 16)

example : pcm_read_u8_as_s8 0 = -128 := by decide
example : pcm_read_s8_as_s16 0xFF = -256 := by decide
example : pcm_read_s16le_as_u16 0x00 0x80 = 0 := by decide
example : pcm_write_s16_as_s32le (-1) = [0, 0, 0xFF, 0xFF] := by decide

/-! ## Float sample conversions (`pcm.c`)

In-memory `float` samples are exact rational values except in the
`f32`↔`f32` pass-through paths, where the `union`-based codec moves the
bit pattern untouched and the sample is modelled by its pattern.
Float-to-integer casts truncate toward zero (`ctrunc`), defined only on
the in-range values the claims use (out of range is C undefined
behaviour). -/

/-- `pcm_write_s8_as_f32le` per-sample:
`WFLE(p, *samples > 0 ? (*samples * 1.0) / INT8_MAX
                      : (*samples * -1.0) / INT8_MIN)`.
The two double divisions round to binary64; storing into the `float`
member of the union rounds to binary32, whose pattern is packed
little-endian. -/
def pcm_write_s8_as_f32le (s : Int) : List Nat :=
  w32leN (f32enc (if 0 < s then f64round (qdiv (s : ℚ) 127)
                  else f64round (qdiv ((-s : Int) : ℚ) (-128))))

/-- `pcm_write_s8_as_f32be` per-sample: identical to the little-endian
variant because the source packs with `WFLE` (not `WFBE`) here. -/
def pcm_write_s8_as_f32be (s : Int) : List Nat :=
  w32leN (f32enc (if 0 < s then f64round (qdiv (s : ℚ) 127)
                  else f64round (qdiv ((-s : Int) : ℚ) (-128))))

/-- `pcm_write_f32_as_s32le` per-sample:
`W32LE(p, *samples > 0 ? *samples * INT32_MAX
                       : *samples * INT32_MIN * -1.0)`.
`INT32_MAX`/`INT32_MIN` convert to `float` (`f32round`), the products
are `float` multiplications, the `* -1.0` lifts to double, and the
`uint32_t _s = s` of `W32LE` truncates toward zero. -/
def pcm_write_f32_as_s32le (f : ℚ) : List Nat :=
  w32leN (toUInt32 (ctrunc
    (if 0 < f then f32round (qmul f (f32round 2147483647))
     else f64round (qmul (f32round (qmul f (f32round (-2147483648)))) (-1)))))

/-- `pcm_read_s32le_as_f32` per-sample:
`*samples = (int32_t)R32LE(p);
 *samples /= *samples > 0 ? INT32_MAX : -1.0 * INT32_MIN;`.
The `int32_t` is converted to `float` by the first assignment; the
compound division promotes to double and rounds back to `float`. -/
def pcm_read_s32le_as_f32 (b0 b1 b2 b3 : Nat) : ℚ :=
  let s1 : ℚ := f32round ((toInt32 (r32le b0 b1 b2 b3) : ℚ))
  let d : ℚ := if 0 < s1 then ((2147483647 : Int) : ℚ)
               else f64round (qmul (-1) (f64round ((-2147483648 : Int) : ℚ)))
  f32round (f64round (qdiv s1 d))

/-- `pcm_write_f32_as_f32le` per-sample: `WFLE(p, *samples++)` — the
float's bit pattern packed little-endian, no value transformation. -/
def pcm_write_f32_as_f32le (u : Nat) : List Nat := w32leN (u % 2 ^ 32)

/-- `pcm_write_f32_as_f32be` per-sample: `WFBE(p, *samples++)`. -/
def pcm_write_f32_as_f32be (u : Nat) : List Nat := w32beN (u % 2 ^ 32)

/-- `pcm_read_f32le_as_f32` per-sample: `*samples++ = RFLE(p)` — the
little-endian byte group reassembled into the float's bit pattern. -/
def pcm_read_f32le_as_f32 (b0 b1 b2 b3 : Nat) : Nat := r32le b0 b1 b2 b3

/-- `pcm_read_f32be_as_f32` per-sample: `*samples++ = RFBE(p)`. -/
def pcm_read_f32be_as_f32 (b0 b1 b2 b3 : Nat) : Nat := r32be b0 b1 b2 b3

/-- `pcm_read_f32le_as_s8` per-sample:
`*samples++ = ((f=RFLE(p))>0) ? f*INT8_MAX : -f*INT8_MIN;`.
`f` receives the decoded float; the products are `float`
multiplications and the store into `int8_t` truncates. -/
def pcm_read_f32le_as_s8 (b0 b1 b2 b3 : Nat) : Int :=
  let f : ℚ := f32val (r32le b0 b1 b2 b3)
  if 0 < f then toInt8 (ctrunc (f32round (qmul f (f32round 127))))
  else toInt8 (ctrunc (f32round (qmul (-f) (f32round (-128)))))

/-- `pcm_read_f32be_as_s8` per-sample:
`*samples++ = (f=RFBE(p) > 0) ? f*INT8_MAX : -f*INT8_MIN;`.
Unlike the little-endian sibling, the missing parentheses make `f` the
result of the comparison `RFBE(p) > 0` (an `int` `0`/`1` converted to
`float`), and that value also drives the conditional. -/
def pcm_read_f32be_as_s8 (b0 b1 b2 b3 : Nat) : Int :=
  let f : ℚ := if 0 < f32val (r32be b0 b1 b2 b3) then 1 else 0
  if f ≠ 0 then toInt8 (ctrunc (f32round (qmul f (f32round 127))))
  else toInt8 (ctrunc (f32round (qmul (-f) (f32round (-128)))))

example : pcm_read_f32le_as_s8 0 0 0 0x3F = 63 := by decide
example : pcm_read_f32be_as_s8 0x3F 0 0 0 = 127 := by decide
example : pcm_write_s8_as_f32le 1 = [0x04, 0x02, 0x01, 0x3C] := by decide

/-! ## Streaming driver loops (`pcm.c`)

The chunked read loops of `pcm.c` have the shape

```
while (len) {
        buflen = MIN(len, BUFSIZE);
        if ((r = read(fd, buf, buflen * B)) == -1) err(1, NULL);
        …convert r/B samples…
        len -= r/B;
        tot += r/B;
}
```

The underlying `read(2)` on a plain stream with `avail` bytes left
transfers `min requested avail` bytes.  The loop models below carry
explicit fuel: a result of `none` for every fuel value means the loop
never exits. -/

/-- `BUFSIZE` of `pcm.c` (`32 * 1024` samples of scratch space). -/
def BUFSIZE : Nat := 32 * 1024

/-- Driver loop of `pcm_read_s16le_as_s16` (per-chunk request
`buflen * 2` bytes, `len -= r/2`, `tot += r/2`) over a stream holding
`avail` more bytes, with fuel. -/
def pcm_read_s16le_as_s16_loop : Nat → Nat → Nat → Nat → Option Nat
  | 0, _, _, _ => none
  | fuel + 1, avail, len, tot =>
    if len = 0 then some tot
    else
      let buflen := min len BUFSIZE
      let r := min (buflen * 2) avail
      pcm_read_s16le_as_s16_loop fuel (avail - r) (len - r / 2) (tot + r / 2)

/-- Driver loop of `pcm_read_s8_as_s16` (per-chunk request `buflen`
bytes, `len -= r`, `tot += r`) over a stream holding `avail` more
bytes, with fuel. -/
def pcm_read_s8_as_s16_loop : Nat → Nat → Nat → Nat → Option Nat
  | 0, _, _, _ => none
  | fuel + 1, avail, len, tot =>
    if len = 0 then some tot
    else
      let buflen := min len BUFSIZE
      let r := min buflen avail
      pcm_read_s8_as_s16_loop fuel (avail - r) (len - r) (tot + r)

/-! ## Error handling of the typed entry points (`pcm.c`)

Every conversion routine checks the underlying byte primitive with
`if ((r = read(...)) == -1) err(1, NULL);` (likewise `write`): a
primitive error terminates the process.  `PcmOutcome.fatal` models the
`err(1)` exit; `PcmOutcome.ok n` models a normal return of `n`. -/

/-- Outcome of a typed entry point call: a returned value, or process
termination through `err(1)`. -/
inductive PcmOutcome where
  | ok (n : Int)
  | fatal
deriving DecidableEq

/-- `pcm_read_s8_as_s8` against a primitive that returns `some r`
(`r` bytes read) or `none` (the `read` primitive reports an error). -/
def pcm_read_s8_as_s8_io (prim : Option Nat) : PcmOutcome :=
  match prim with
  | none => .fatal
  | some r => .ok r

/-- The full driver loop of `pcm_write_s16_as_s16le`: the `k`-th
`write` call is answered by `prim k` (`none` = primitive error,
`some w` = `w` bytes written); `len -= buflen`, `tot += w/2`. -/
def pcm_write_s16_as_s16le_io (prim : Nat → Option Nat) (idx : Nat)
    (samples : List Int) (tot : Nat) : PcmOutcome :=
  match samples with
  | [] => .ok tot
  | a :: rest =>
    let buflen := min (a :: rest).length BUFSIZE
    match prim idx with
    | none => .fatal
    | some w =>
      pcm_write_s16_as_s16le_io prim (idx + 1) ((a :: rest).drop buflen) (tot + w / 2)
termination_by samples.length
decreasing_by simp [List.length_drop, BUFSIZE]

example : pcm_read_s8_as_s8_io none = .fatal := by decide
example : pcm_read_s8_as_s8_io (some 5) = .ok 5 := by decide

/-! ## The `audio.c` layer: descriptors, `au_open`, typed wrappers

`AUINFO` mirrors `struct info` of `audio.h` (the unused `seconds`
double is omitted).  `au_open` is translated control-path by
control-path; the external `open(2)` primitive is a boolean parameter
`fdOk`, `calloc` is assumed to succeed (its failure calls `err(1)`).
`OpenEffects` records whether the call performed an `open(2)` and
whether `pcm_init` bound a conversion-routine set onto the handle. -/

def AU_ENCTYPE_MASK : Nat := 0xff000000

def AU_ENCODING_MASK : Nat := 0x00ff0000

def AU_ORDER_MASK : Nat := 0x0000ff00

def AU_BITSIZE_MASK : Nat := 0x000000ff

def AU_ENCTYPE_PCM : Nat := 0x01000000

def AU_ENCODING_SIGNED : Nat := 0x00010000

def AU_ENCODING_UNSIGNED : Nat := 0x00020000

def AU_ENCODING_FLOAT : Nat := 0x00030000

def AU_ORDER_NONE : Nat := 0x00000000

def AU_ORDER_LE : Nat := 0x00000100

def AU_ORDER_BE : Nat := 0x00000200

def AU_FILETYPE_UNKNOWN : Nat := 0

def AU_FILETYPE_RAW : Nat := 1

def AU_FILETYPE_WAV : Nat := 2

/-- `AUMODE` of `audio.h`. -/
inductive AUMODE where
  | read
  | write
deriving DecidableEq

/-- `struct info` of `audio.h` (without the unused `seconds`). -/
structure AUINFO where
  filetype : Nat
  srate : Nat
  encoding : Nat
  channels : Nat
  frames : Nat
  samples : Nat
deriving DecidableEq

/-- `suff2type`: case-insensitive comparison of the suffix against the
`filetypes[]` table (`"raw"`, `"wav"`); `strncasecmp(suff, t, 4)` with
3-character table entries succeeds only on full equality. -/
def suff2type (suff : List Char) : Nat :=
  if suff.map Char.toLower = "raw".data then AU_FILETYPE_RAW
  else if suff.map Char.toLower = "wav".data then AU_FILETYPE_WAV
  else AU_FILETYPE_UNKNOWN

/-- Characters after the last `'.'` (the `strrchr(path, '.')` of
`name2type`), or `none` when there is no dot. -/
def afterLastDot : List Char → Option (List Char)
  | [] => none
  | c :: rest =>
    match afterLastDot rest with
    | some s => some s
    | none => if c = '.' then some rest else none

/-- `name2type` of `audio.c`: `"-"` is raw, otherwise the suffix after
the last dot decides, otherwise unknown. -/
def name2type (path : List Char) : Nat :=
  if path = ['-'] then AU_FILETYPE_RAW
  else
    match afterLastDot path with
    | none => AU_FILETYPE_UNKNOWN
    | some suff => suff2type suff

/-- The failure exits of `au_open`, one per diagnostic (`warnx`)
message or silent `NULL` return. -/
inductive OpenFail where
  | nullInfo
  | nullPath
  | emptyPath
  | noFiletype
  | noSrate
  | noEnctype
  | noEncoding
  | noBitsize
  | noByteorder
  | noChannels
  | openCallFailed
  | badFiletype
  | pcmInitFailed
  | badEnctype
deriving DecidableEq

/-- What `au_open` did before returning: whether `open(2)` succeeded on
the path and whether `pcm_init` bound the conversion routines. -/
structure OpenEffects where
  openedFd : Bool
  boundConv : Bool
deriving DecidableEq

/-- `struct aufile` of `audio.h`, reduced to the fields the claims
observe; `convKey` stands for the fourteen bound function pointers (the
dispatch case that selected them). -/
structure AUFILE where
  fd : Nat
  mode : AUMODE
  filetype : Nat
  convKey : Nat
deriving DecidableEq

/-- The twelve on-disk combinations recognized by the `pcm_init`
dispatch switch (same case labels for reading and writing). -/
def pcmDispatchKeys : List Nat :=
  [AU_ENCODING_SIGNED ||| AU_ORDER_NONE ||| 8,
   AU_ENCODING_UNSIGNED ||| AU_ORDER_NONE ||| 8,
   AU_ENCODING_SIGNED ||| AU_ORDER_LE ||| 16,
   AU_ENCODING_SIGNED ||| AU_ORDER_BE ||| 16,
   AU_ENCODING_UNSIGNED ||| AU_ORDER_LE ||| 16,
   AU_ENCODING_UNSIGNED ||| AU_ORDER_BE ||| 16,
   AU_ENCODING_SIGNED ||| AU_ORDER_LE ||| 32,
   AU_ENCODING_SIGNED ||| AU_ORDER_BE ||| 32,
   AU_ENCODING_UNSIGNED ||| AU_ORDER_LE ||| 32,
   AU_ENCODING_UNSIGNED ||| AU_ORDER_BE ||| 32,
   AU_ENCODING_FLOAT ||| AU_ORDER_LE ||| 32,
   AU_ENCODING_FLOAT ||| AU_ORDER_BE ||| 32]

/-- `pcm_init` of `pcm.c`: requires the PCM encoding type, then matches
the masked encoding against the twelve dispatch cases; `some key` means
the seven conversion routines for `mode` were installed, `none` is the
`-1` failure return. -/
def pcm_init (mode : AUMODE) (enc : Nat) : Option Nat :=
  if enc &&& AU_ENCTYPE_MASK ≠ AU_ENCTYPE_PCM then none
  else
    let key := enc &&& (AU_ENCODING_MASK ||| AU_ORDER_MASK ||| AU_BITSIZE_MASK)
    if key ∈ pcmDispatchKeys then some key else none

/-- The validation block of `au_open` (run when writing or when the
filetype is raw), in source order; `some e` is the first failing check. -/
def au_open_validate (info : AUINFO) : Option OpenFail :=
  if info.srate = 0 then some .noSrate
  else if info.encoding &&& AU_ENCTYPE_MASK = 0 then some .noEnctype
  else if info.encoding &&& AU_ENCODING_MASK = 0 then some .noEncoding
  else if info.encoding &&& AU_BITSIZE_MASK = 0 then some .noBitsize
  else if info.encoding &&& AU_ORDER_MASK = 0 ∧ 8 < info.encoding &&& AU_BITSIZE_MASK then
    some .noByteorder
  else if info.channels = 0 then some .noChannels
  else none

/-- The tail of `au_open` after a file descriptor is at hand: the
filetype switch, then the encoding-type switch that calls `pcm_init`. -/
def au_open_bind (fd : Nat) (opened : Bool) (mode : AUMODE) (ft : Nat)
    (info : AUINFO) : Except OpenFail AUFILE × OpenEffects :=
  if ft = AU_FILETYPE_RAW ∨ ft = AU_FILETYPE_WAV then
    if info.encoding &&& AU_ENCTYPE_MASK = AU_ENCTYPE_PCM then
      match pcm_init mode info.encoding with
      | some key => (.ok ⟨fd, mode, ft, key⟩, ⟨opened, true⟩)
      | none => (.error .pcmInitFailed, ⟨opened, false⟩)
    else (.error .badEnctype, ⟨opened, false⟩)
  else (.error .badFiletype, ⟨opened, false⟩)

/-- `au_open` of `audio.c`.  `fdOk` is the outcome of the `open(2)`
primitive on a real path; `"-"` uses the standard streams without
opening anything. -/
def au_open (path : Option (List Char)) (mode : AUMODE) (info : Option AUINFO)
    (fdOk : Bool) : Except OpenFail AUFILE × OpenEffects :=
  match info with
  | none => (.error .nullInfo, ⟨false, false⟩)
  | some info =>
    match path with
    | none => (.error .nullPath, ⟨false, false⟩)
    | some path =>
      if path.length = 0 then (.error .emptyPath, ⟨false, false⟩)
      else
        let ft := if info.filetype = AU_FILETYPE_UNKNOWN then name2type path
                  else info.filetype
        if ft = AU_FILETYPE_UNKNOWN then (.error .noFiletype, ⟨false, false⟩)
        else
          match (if ft = AU_FILETYPE_RAW ∨ mode = AUMODE.write
                 then au_open_validate info else none) with
          | some e => (.error e, ⟨false, false⟩)
          | none =>
            if path = ['-'] then
              au_open_bind (if mode = AUMODE.read then 0 else 1) false mode ft info
            else if fdOk then au_open_bind 3 true mode ft info
            else (.error .openCallFailed, ⟨false, false⟩)

/-- `au_write_s8` of `audio.c`: forwards to the bound routine (whose
return value is `n`) and on success accumulates `n` into the stream's
`info->samples` (a `uint32_t`); a negative `n` is mapped to `-1`. -/
def au_write_s8 (samples0 : Nat) (n : Int) : Int × Nat :=
  if 0 ≤ n then (n, toUInt32 ((samples0 : Int) + n))
  else (-1, samples0)

/-- `au_write_u8` of `audio.c`: forwards to the bound routine and
returns its value; `info->samples` is not touched. -/
def au_write_u8 (samples0 : Nat) (n : Int) : Int × Nat := (n, samples0)

example : name2type "test.raw".data = AU_FILETYPE_RAW := by decide
example : name2type "x.WAV".data = AU_FILETYPE_WAV := by decide
example : name2type "noext".data = AU_FILETYPE_UNKNOWN := by decide
example : name2type "-".data = AU_FILETYPE_RAW := by decide
example : pcm_init .read (AU_ENCTYPE_PCM ||| AU_ENCODING_SIGNED ||| AU_ORDER_LE ||| 16)
    = some (AU_ENCODING_SIGNED ||| AU_ORDER_LE ||| 16) := by decide
example : pcm_init .write (AU_ENCTYPE_PCM ||| AU_ENCODING_SIGNED ||| AU_ORDER_LE ||| 24)
    = none := by decide

/-! ## Auxiliary reassembly helpers and driver-loop lemmas -/

/-- `R16LE` applied to a 2-byte group given as a list. -/
def r16leL (bs : List Nat) : Nat := r16le (bs.getD 0 0) (bs.getD 1 0)

/-- `pcm_read_f32le_as_f32` on a byte group given as a list. -/
def pcm_read_f32le_as_f32_bytes (bs : List Nat) : Nat :=
  pcm_read_f32le_as_f32 (bs.getD 0 0) (bs.getD 1 0) (bs.getD 2 0) (bs.getD 3 0)

/-- `pcm_read_f32be_as_f32` on a byte group given as a list. -/
def pcm_read_f32be_as_f32_bytes (bs : List Nat) : Nat :=
  pcm_read_f32be_as_f32 (bs.getD 0 0) (bs.getD 1 0) (bs.getD 2 0) (bs.getD 3 0)

/-- With no bytes left (`read` returns `0`), the `s16le` driver loop
never leaves its `while` loop for any amount of fuel. -/
theorem s16le_loop_no_bytes (fuel len tot : Nat) (h : len ≠ 0) :
    pcm_read_s16le_as_s16_loop fuel 0 len tot = none := by
  induction fuel with
  | zero => rfl
  | succ n ih =>
    simp only [pcm_read_s16le_as_s16_loop, h, if_false, Nat.min_zero,
      Nat.zero_div, Nat.sub_zero, Nat.add_zero, Nat.zero_sub]
    exact ih

/-- With no bytes left, the `s8`-source driver loop never exits. -/
theorem s8_loop_no_bytes (fuel len tot : Nat) (h : len ≠ 0) :
    pcm_read_s8_as_s16_loop fuel 0 len tot = none := by
  induction fuel with
  | zero => rfl
  | succ n ih =>
    simp only [pcm_read_s8_as_s16_loop, h, if_false, Nat.min_zero,
      Nat.sub_zero, Nat.add_zero, Nat.zero_sub]
    exact ih

/-! ## The claims -/

/-- C1: the claim says a short transfer from the byte primitive —
including zero bytes at end-of-data — ends the chunked driver loop and
the call returns the partial total.  The code instead subtracts the
transferred sample count from the remaining request and iterates again:
at end-of-data (`read` returning `0`: one sample requested and zero
bytes available, or two samples requested with only one sample's bytes
available) the loop never exits, for any amount of fuel, instead of
returning the partial totals `0` and `1`. -/
theorem C1_driver_loop_diverges_on_short_read :
    (∀ fuel, pcm_read_s16le_as_s16_loop fuel 0 1 0 = none) ∧
    (∀ fuel, pcm_read_s16le_as_s16_loop fuel 2 2 0 = none) ∧
    (∀ fuel, pcm_read_s8_as_s16_loop fuel 0 1 0 = none) := by
  refine ⟨fun fuel => s16le_loop_no_bytes fuel 1 0 one_ne_zero, fun fuel => ?_,
    fun fuel => s8_loop_no_bytes fuel 1 0 one_ne_zero⟩
  cases fuel with
  | zero => rfl
  | succ n =>
    have h2 : pcm_read_s16le_as_s16_loop (n + 1) 2 2 0
        = pcm_read_s16le_as_s16_loop n 0 1 1 := by
      simp [pcm_read_s16le_as_s16_loop, BUFSIZE]
    rw [h2]
    exact s16le_loop_no_bytes n 1 1 one_ne_zero

/-- C2 (counterexample): the claim says a typed entry point returns
`−1` to the caller when the byte primitive reports an error; instead
`pcm_read_s8_as_s8` on an erroring primitive reaches `err(1, NULL)` —
process termination, not a `−1` return. -/
theorem C2_cx_error_is_fatal_not_minus_one :
    pcm_read_s8_as_s8_io none = PcmOutcome.fatal ∧
    pcm_read_s8_as_s8_io none ≠ PcmOutcome.ok (-1) := by
  decide

/-- C2 (amended): when the underlying byte primitive reports an error,
the typed entry points do not return `−1` (or anything): they terminate
the process through `err(1)` — `pcm_read_s8_as_s8` on its single read,
`pcm_write_s16_as_s16le` on whichever chunked write call fails. -/
theorem C2_error_terminates_process :
    (∀ prim : Option Nat, prim = none → pcm_read_s8_as_s8_io prim = PcmOutcome.fatal) ∧
    (∀ (prim : Nat → Option Nat) (idx : Nat) (samples : List Int) (tot : Nat),
      samples ≠ [] → prim idx = none →
      pcm_write_s16_as_s16le_io prim idx samples tot = PcmOutcome.fatal) := by
  constructor
  · intro prim h
    rw [h]
    rfl
  · intro prim idx samples tot hs hp
    cases samples with
    | nil => exact absurd rfl hs
    | cons a rest =>
      rw [pcm_write_s16_as_s16le_io]
      simp [hp]

/-- C2 (witness): the amended theorem at concrete inputs — an erroring
read primitive, and a write of one sample whose first `write` call
errors. -/
theorem C2_error_terminates_process_witness :
    pcm_read_s8_as_s8_io none = PcmOutcome.fatal ∧
    pcm_write_s16_as_s16le_io (fun _ => none) 0 [5] 0 = PcmOutcome.fatal :=
  ⟨C2_error_terminates_process.1 none rfl,
   C2_error_terminates_process.2 (fun _ => none) 0 [5] 0 (by decide) rfl⟩

/-- C3 (counterexample): the claim asserts a bit-for-bit float round
trip through every 32-bit encoding.  Through the signed-32 little-
endian encoding the representable float `2⁻³²` is written as the byte
group `00 00 00 00` (the product `2⁻³² · (float)INT32_MAX = 0.5`
truncates to sample `0`), which reads back as `0.0 ≠ 2⁻³²`. -/
theorem C3_cx_s32le_roundtrip_not_exact :
    pcm_write_f32_as_s32le (mkRat 1 4294967296) = [0, 0, 0, 0] ∧
    pcm_read_s32le_as_f32 0 0 0 0 = 0 ∧
    (0 : ℚ) ≠ mkRat 1 4294967296 := by
  decide

/-- C3 (amended): for the two float encodings (`f32le`, `f32be`)
writing any 32-bit float pattern via the float entry point and reading
it back via the float entry point of the same encoding reproduces the
pattern bit-for-bit; through the integer 32-bit encodings the round
trip is not bit-for-bit (see the counterexample). -/
theorem C3_f32_roundtrip_bit_for_bit :
    ∀ u : Nat, u < 2 ^ 32 →
      pcm_read_f32le_as_f32_bytes (pcm_write_f32_as_f32le u) = u ∧
      pcm_read_f32be_as_f32_bytes (pcm_write_f32_as_f32be u) = u := by
  intro u hu
  constructor
  · simp only [pcm_read_f32le_as_f32_bytes, pcm_write_f32_as_f32le,
      pcm_read_f32le_as_f32, w32leN, r32le, List.getD_cons_zero, List.getD_cons_succ]
    omega
  · simp only [pcm_read_f32be_as_f32_bytes, pcm_write_f32_as_f32be,
      pcm_read_f32be_as_f32, w32beN, r32be, List.getD_cons_zero, List.getD_cons_succ]
    omega

/-- C3 (witness): the amended round trip at the pattern of `0.5f`. -/
theorem C3_f32_roundtrip_bit_for_bit_witness :
    pcm_read_f32le_as_f32_bytes (pcm_write_f32_as_f32le 0x3F000000) = 0x3F000000 ∧
    pcm_read_f32be_as_f32_bytes (pcm_write_f32_as_f32be 0x3F000000) = 0x3F000000 :=
  C3_f32_roundtrip_bit_for_bit 0x3F000000 (by decide)

/-- C4: the claim says the big-endian and little-endian writers of the
same width and signedness emit byte-reversed sample groups.
`pcm_write_s8_as_f32be` packs with `WFLE`, so for the in-memory `s8`
sample `1` it emits exactly the bytes of the little-endian variant,
`04 02 01 3C`, whose reversal differs — the two streams are identical
rather than byte-reversed.  (For contrast, the 16-bit signed writers do
emit reversed groups for every sample.) -/
theorem C4_s8_as_f32be_not_byte_reversed :
    pcm_write_s8_as_f32le 1 = [0x04, 0x02, 0x01, 0x3C] ∧
    pcm_write_s8_as_f32be 1 = [0x04, 0x02, 0x01, 0x3C] ∧
    List.reverse [0x04, 0x02, 0x01, 0x3C] ≠ [(0x04 : Nat), 0x02, 0x01, 0x3C] ∧
    (∀ s : Int, pcm_write_s16_as_s16be s = (pcm_write_s16_as_s16le s).reverse) := by
  refine ⟨by decide, by decide, by decide, fun s => ?_⟩
  simp [pcm_write_s16_as_s16be, pcm_write_s16_as_s16le, w16le, w16be]

/-- C5: the claim says float-to-signed denormalization branches on the
float's sign (`f·INT8_MAX` for `f > 0`, `f·|INT8_MIN|` otherwise) and
that the LE and BE source variants agree on every float.  Both byte
groups below decode to the float `0.5`; the little-endian reader
produces `⌊0.5 · 127⌋ = 63`, but in `pcm_read_f32be_as_s8` the missing
parentheses in `(f=RFBE(p) > 0)` store the comparison result `1.0` in
`f`, producing `127`. -/
theorem C5_f32be_as_s8_disagrees_with_le :
    f32val (r32le 0x00 0x00 0x00 0x3F) = f32val (r32be 0x3F 0x00 0x00 0x00) ∧
    pcm_read_f32le_as_s8 0x00 0x00 0x00 0x3F = 63 ∧
    pcm_read_f32be_as_s8 0x3F 0x00 0x00 0x00 = 127 := by
  decide

/-- C6: converting between the signed and unsigned representation of
the same width adds or subtracts the half-range bias `2^(w−1)`: the
unsigned-destination read of a byte group exceeds the signed-
destination read of the same group by exactly `0x80` / `0x8000` /
`0x80000000`, and writing the unsigned 8-bit value `0` then reading the
resulting byte back as signed 8-bit yields `−128`. -/
theorem C6_sign_conversion_adds_half_range_bias :
    (∀ b, b < 256 → pcm_read_u8_as_s8 b = (pcm_read_u8_as_u8 b : Int) - 128) ∧
    (∀ b, b < 256 → (pcm_read_s8_as_u8 b : Int) = pcm_read_s8_as_s8 b + 128) ∧
    (∀ b0 b1, b0 < 256 → b1 < 256 →
      (pcm_read_s16le_as_u16 b0 b1 : Int) = pcm_read_s16le_as_s16 b0 b1 + 32768) ∧
    (∀ b0 b1, b0 < 256 → b1 < 256 →
      pcm_read_u16le_as_s16 b0 b1 = (pcm_read_u16le_as_u16 b0 b1 : Int) - 32768) ∧
    (∀ b0 b1 b2 b3, b0 < 256 → b1 < 256 → b2 < 256 → b3 < 256 →
      (pcm_read_s32le_as_u32 b0 b1 b2 b3 : Int)
        = pcm_read_s32le_as_s32 b0 b1 b2 b3 + 2147483648) ∧
    pcm_read_u8_as_s8 ((pcm_write_u8_as_u8 0).getD 0 0) = -128 := by
  refine ⟨fun b hb => ?_, fun b hb => ?_, fun b0 b1 h0 h1 => ?_,
    fun b0 b1 h0 h1 => ?_, fun b0 b1 b2 b3 h0 h1 h2 h3 => ?_, by decide⟩
  · simp only [pcm_read_u8_as_s8, pcm_read_u8_as_u8, toInt8]
    omega
  · simp only [pcm_read_s8_as_u8, pcm_read_s8_as_s8, toInt8, toUInt8]
    omega
  · simp only [pcm_read_s16le_as_u16, pcm_read_s16le_as_s16, toInt16, toUInt16, r16le]
    omega
  · simp only [pcm_read_u16le_as_s16, pcm_read_u16le_as_u16, toInt16, toUInt16, r16le]
    omega
  · simp only [pcm_read_s32le_as_u32, pcm_read_s32le_as_s32, toInt32, toUInt32, r32le]
    omega

/-- C6 (witness): the bias relations at the byte groups of the u8
sample `0xC8`, the s16le sample `0x0180`, the u16le sample `0x8001`,
the s32le sample `0x80000000`, plus the concrete write/read of `0`. -/
theorem C6_sign_conversion_adds_half_range_bias_witness :
    pcm_read_u8_as_s8 0xC8 = (pcm_read_u8_as_u8 0xC8 : Int) - 128 ∧
    (pcm_read_s8_as_u8 0x7F : Int) = pcm_read_s8_as_s8 0x7F + 128 ∧
    (pcm_read_s16le_as_u16 0x80 0x01 : Int) = pcm_read_s16le_as_s16 0x80 0x01 + 32768 ∧
    pcm_read_u16le_as_s16 0x01 0x80 = (pcm_read_u16le_as_u16 0x01 0x80 : Int) - 32768 ∧
    (pcm_read_s32le_as_u32 0 0 0 0x80 : Int) = pcm_read_s32le_as_s32 0 0 0 0x80 + 2147483648 :=
  ⟨C6_sign_conversion_adds_half_range_bias.1 0xC8 (by decide),
   C6_sign_conversion_adds_half_range_bias.2.1 0x7F (by decide),
   C6_sign_conversion_adds_half_range_bias.2.2.1 0x80 0x01 (by decide) (by decide),
   C6_sign_conversion_adds_half_range_bias.2.2.2.1 0x01 0x80 (by decide) (by decide),
   C6_sign_conversion_adds_half_range_bias.2.2.2.2.1 0 0 0 0x80
     (by decide) (by decide) (by decide) (by decide)⟩

/-- C7: every modelled same-signedness widening conversion left-shifts
the sample by the width difference — the widened sample equals
`2^(dw−sw)` times the narrow sample read by the identity conversion of
the same source, and its low-order bits are zero. -/
theorem C7_widening_is_left_shift :
    (∀ b, b < 256 →
      pcm_read_s8_as_s16 b = 2 ^ 8 * pcm_read_s8_as_s8 b ∧
      pcm_read_s8_as_s16 b % 2 ^ 8 = 0) ∧
    (∀ b, b < 256 → pcm_read_s8_as_s32 b = 2 ^ 24 * pcm_read_s8_as_s8 b) ∧
    (∀ b, b < 256 →
      pcm_read_u8_as_u16 b = 2 ^ 8 * pcm_read_u8_as_u8 b ∧
      pcm_read_u8_as_u16 b % 2 ^ 8 = 0) ∧
    (∀ b, b < 256 → pcm_read_u8_as_u32 b = 2 ^ 24 * pcm_read_u8_as_u8 b) ∧
    (∀ b0 b1, b0 < 256 → b1 < 256 →
      pcm_read_s16le_as_s32 b0 b1 = 2 ^ 16 * pcm_read_s16le_as_s16 b0 b1) ∧
    (∀ b0 b1, b0 < 256 → b1 < 256 →
      pcm_read_u16le_as_u32 b0 b1 = 2 ^ 16 * pcm_read_u16le_as_u16 b0 b1) ∧
    (∀ s : Int, -32768 ≤ s → s ≤ 32767 →
      toInt32 (r32leL (pcm_write_s16_as_s32le s)) = 2 ^ 16 * s ∧
      r32leL (pcm_write_s16_as_s32le s) % 2 ^ 16 = 0) ∧
    (∀ u : Nat, u < 65536 → r32leL (pcm_write_u16_as_u32le u) = 2 ^ 16 * u) ∧
    (∀ s : Int, -128 ≤ s → s ≤ 127 →
      toInt16 (r16leL (pcm_write_s8_as_s16le s)) = 2 ^ 8 * s) ∧
    (∀ u : Nat, u < 256 → r16leL (pcm_write_u8_as_u16le u) = 2 ^ 8 * u) := by
  refine ⟨fun b hb => ?_, fun b hb => ?_, fun b hb => ?_, fun b hb => ?_,
    fun b0 b1 h0 h1 => ?_, fun b0 b1 h0 h1 => ?_, fun s h0 h1 => ?_,
    fun u hu => ?_, fun s h0 h1 => ?_, fun u hu => ?_⟩
  · simp only [pcm_read_s8_as_s16, pcm_read_s8_as_s8, toInt16, toInt8]
    omega
  · simp only [pcm_read_s8_as_s32, pcm_read_s8_as_s8, toInt32, toInt8]
    omega
  · simp only [pcm_read_u8_as_u16, pcm_read_u8_as_u8, toUInt16]
    omega
  · simp only [pcm_read_u8_as_u32, pcm_read_u8_as_u8, toUInt32]
    omega
  · simp only [pcm_read_s16le_as_s32, pcm_read_s16le_as_s16, toInt32, toInt16, r16le]
    omega
  · simp only [pcm_read_u16le_as_u32, pcm_read_u16le_as_u16, toUInt32, toUInt16, r16le]
    omega
  · simp only [pcm_write_s16_as_s32le, r32leL, w32le, w32leN, r32le, toInt32, toUInt32,
      List.getD_cons_zero, List.getD_cons_succ]
    omega
  · simp only [pcm_write_u16_as_u32le, r32leL, w32le, w32leN, r32le, toUInt32,
      List.getD_cons_zero, List.getD_cons_succ]
    omega
  · simp only [pcm_write_s8_as_s16le, r16leL, w16le, r16le, toInt16, toUInt16,
      List.getD_cons_zero, List.getD_cons_succ]
    omega
  · simp only [pcm_write_u8_as_u16le, r16leL, w16le, r16le, toUInt16,
      List.getD_cons_zero, List.getD_cons_succ]
    omega

/-- C7 (witness): the widening relations at concrete samples —
byte `0xFF` (value `−1` signed, `255` unsigned), 16-bit group
`0x8001`, and the written samples `−1` (s16, s8) and `0xFFFF`/`0xFF`
(u16, u8). -/
theorem C7_widening_is_left_shift_witness :
    (pcm_read_s8_as_s16 0xFF = 2 ^ 8 * pcm_read_s8_as_s8 0xFF ∧
      pcm_read_s8_as_s16 0xFF % 2 ^ 8 = 0) ∧
    pcm_read_s8_as_s32 0xFF = 2 ^ 24 * pcm_read_s8_as_s8 0xFF ∧
    (pcm_read_u8_as_u16 0xFF = 2 ^ 8 * pcm_read_u8_as_u8 0xFF ∧
      pcm_read_u8_as_u16 0xFF % 2 ^ 8 = 0) ∧
    pcm_read_u8_as_u32 0xFF = 2 ^ 24 * pcm_read_u8_as_u8 0xFF ∧
    pcm_read_s16le_as_s32 0x01 0x80 = 2 ^ 16 * pcm_read_s16le_as_s16 0x01 0x80 ∧
    pcm_read_u16le_as_u32 0x01 0x80 = 2 ^ 16 * pcm_read_u16le_as_u16 0x01 0x80 ∧
    (toInt32 (r32leL (pcm_write_s16_as_s32le (-1))) = 2 ^ 16 * (-1) ∧
      r32leL (pcm_write_s16_as_s32le (-1)) % 2 ^ 16 = 0) ∧
    r32leL (pcm_write_u16_as_u32le 0xFFFF) = 2 ^ 16 * 0xFFFF ∧
    toInt16 (r16leL (pcm_write_s8_as_s16le (-1))) = 2 ^ 8 * (-1) ∧
    r16leL (pcm_write_u8_as_u16le 0xFF) = 2 ^ 8 * 0xFF :=
  ⟨C7_widening_is_left_shift.1 0xFF (by decide),
   C7_widening_is_left_shift.2.1 0xFF (by decide),
   C7_widening_is_left_shift.2.2.1 0xFF (by decide),
   C7_widening_is_left_shift.2.2.2.1 0xFF (by decide),
   C7_widening_is_left_shift.2.2.2.2.1 0x01 0x80 (by decide) (by decide),
   C7_widening_is_left_shift.2.2.2.2.2.1 0x01 0x80 (by decide) (by decide),
   C7_widening_is_left_shift.2.2.2.2.2.2.1 (-1) (by decide) (by decide),
   C7_widening_is_left_shift.2.2.2.2.2.2.2.1 0xFFFF (by decide),
   C7_widening_is_left_shift.2.2.2.2.2.2.2.2.1 (-1) (by decide) (by decide),
   C7_widening_is_left_shift.2.2.2.2.2.2.2.2.2 0xFF (by decide)⟩

/-- C8: the claim says every successful `au_write_T` adds its return
value to the stream's `info->samples` counter.  `au_write_s8` does, but
`au_write_u8` (like all the other typed write wrappers) forwards the
routine's return value without touching the counter: writing 3 samples
successfully leaves it at `0` instead of `3`. -/
theorem C8_only_au_write_s8_accumulates :
    au_write_s8 0 3 = (3, 3) ∧ au_write_u8 0 3 = (3, 0) := by
  decide

/-- When `au_open` is called with a known filetype that is raw, or in
write mode, any failure reported by the validation block is the call's
result: no file descriptor is opened and no conversion routine bound. -/
theorem au_open_validation_path (p : List Char) (m : AUMODE) (i : AUINFO)
    (fdOk : Bool) (e : OpenFail) (hp : p ≠ [])
    (hft : i.filetype = AU_FILETYPE_RAW ∨ (i.filetype = AU_FILETYPE_WAV ∧ m = AUMODE.write))
    (hv : au_open_validate i = some e) :
    au_open (some p) m (some i) fdOk = (.error e, ⟨false, false⟩) := by
  have hlen : ¬p.length = 0 := by simpa [List.length_eq_zero] using hp
  rcases hft with h | ⟨h, hm⟩
  · simp [au_open, hlen, h, AU_FILETYPE_RAW, AU_FILETYPE_UNKNOWN, hv]
  · subst hm
    simp [au_open, hlen, h, AU_FILETYPE_WAV, AU_FILETYPE_UNKNOWN, hv]

/-- C9: opening a stream for writing, or for reading a raw (headerless)
representation, fails before any conversion routine is bound — with no
descriptor opened and no handle created — whenever the sample rate,
encoding category, signedness, bit width, byte order (checked only for
widths above 8), or channel count is zero, and the failure names the
first missing attribute (each conjunct assumes the checks the source
performs earlier all pass).  In particular a write stream with
signedness set but bit width unset fails naming the bit width. -/
theorem C9_open_validates_before_binding :
    ∀ (p : List Char) (m : AUMODE) (i : AUINFO) (fdOk : Bool),
      p ≠ [] →
      (i.filetype = AU_FILETYPE_RAW ∨ (i.filetype = AU_FILETYPE_WAV ∧ m = AUMODE.write)) →
      ((i.srate = 0 →
          au_open (some p) m (some i) fdOk = (.error .noSrate, ⟨false, false⟩)) ∧
       (i.srate ≠ 0 → i.encoding &&& AU_ENCTYPE_MASK = 0 →
          au_open (some p) m (some i) fdOk = (.error .noEnctype, ⟨false, false⟩)) ∧
       (i.srate ≠ 0 → i.encoding &&& AU_ENCTYPE_MASK ≠ 0 →
          i.encoding &&& AU_ENCODING_MASK = 0 →
          au_open (some p) m (some i) fdOk = (.error .noEncoding, ⟨false, false⟩)) ∧
       (i.srate ≠ 0 → i.encoding &&& AU_ENCTYPE_MASK ≠ 0 →
          i.encoding &&& AU_ENCODING_MASK ≠ 0 →
          i.encoding &&& AU_BITSIZE_MASK = 0 →
          au_open (some p) m (some i) fdOk = (.error .noBitsize, ⟨false, false⟩)) ∧
       (i.srate ≠ 0 → i.encoding &&& AU_ENCTYPE_MASK ≠ 0 →
          i.encoding &&& AU_ENCODING_MASK ≠ 0 →
          i.encoding &&& AU_BITSIZE_MASK ≠ 0 →
          i.encoding &&& AU_ORDER_MASK = 0 → 8 < i.encoding &&& AU_BITSIZE_MASK →
          au_open (some p) m (some i) fdOk = (.error .noByteorder, ⟨false, false⟩)) ∧
       (i.srate ≠ 0 → i.encoding &&& AU_ENCTYPE_MASK ≠ 0 →
          i.encoding &&& AU_ENCODING_MASK ≠ 0 →
          i.encoding &&& AU_BITSIZE_MASK ≠ 0 →
          ¬(i.encoding &&& AU_ORDER_MASK = 0 ∧ 8 < i.encoding &&& AU_BITSIZE_MASK) →
          i.channels = 0 →
          au_open (some p) m (some i) fdOk = (.error .noChannels, ⟨false, false⟩)) ∧
       au_open (some "out.raw".data) AUMODE.write
           (some ⟨AU_FILETYPE_RAW, 48000,
                  AU_ENCTYPE_PCM ||| AU_ENCODING_SIGNED ||| AU_ORDER_LE, 1, 0, 0⟩) true
         = (.error .noBitsize, ⟨false, false⟩)) := by
  intro p m i fdOk hp hft
  refine ⟨fun h1 => au_open_validation_path p m i fdOk _ hp hft ?_,
    fun h1 h2 => au_open_validation_path p m i fdOk _ hp hft ?_,
    fun h1 h2 h3 => au_open_validation_path p m i fdOk _ hp hft ?_,
    fun h1 h2 h3 h4 => au_open_validation_path p m i fdOk _ hp hft ?_,
    fun h1 h2 h3 h4 h5 h6 => au_open_validation_path p m i fdOk _ hp hft ?_,
    fun h1 h2 h3 h4 h5 h6 => au_open_validation_path p m i fdOk _ hp hft ?_,
    rfl⟩
  · simp [au_open_validate, h1]
  · simp [au_open_validate, h1, h2]
  · simp [au_open_validate, h1, h2, h3]
  · simp [au_open_validate, h1, h2, h3, h4]
  · simp [au_open_validate, h1, h2, h3, h4, h5, h6]
  · simp [au_open_validate, h1, h2, h3, h4, h5, h6]

/-- C9 (witness): the validation failures at concrete configurations —
a raw write stream with no sample rate, and the bit-width case of the
claim (signedness set, bit width unset). -/
theorem C9_open_validates_before_binding_witness :
    au_open (some "out.raw".data) AUMODE.write
        (some ⟨AU_FILETYPE_RAW, 0, 0, 0, 0, 0⟩) true
      = (.error .noSrate, ⟨false, false⟩) ∧
    au_open (some "out.raw".data) AUMODE.write
        (some ⟨AU_FILETYPE_RAW, 48000,
               AU_ENCTYPE_PCM ||| AU_ENCODING_SIGNED ||| AU_ORDER_LE, 1, 0, 0⟩) true
      = (.error .noBitsize, ⟨false, false⟩) :=
  ⟨(C9_open_validates_before_binding "out.raw".data AUMODE.write
      ⟨AU_FILETYPE_RAW, 0, 0, 0, 0, 0⟩ true (by decide) (by decide)).1 rfl,
   (C9_open_validates_before_binding "out.raw".data AUMODE.write
      ⟨AU_FILETYPE_RAW, 48000,
       AU_ENCTYPE_PCM ||| AU_ENCODING_SIGNED ||| AU_ORDER_LE, 1, 0, 0⟩ true
      (by decide) (by decide)).2.2.2.1 (by decide) (by decide) (by decide) (by decide)⟩

/-- C10: for either mode, `au_open` returns `NULL` — with no file
descriptor opened and no conversion routine bound — when its info
argument is null, its path argument is null, or the path is the empty
string. -/
theorem C10_open_rejects_null_arguments :
    ∀ (m : AUMODE) (fdOk : Bool),
      (∀ p, au_open p m none fdOk = (.error .nullInfo, ⟨false, false⟩)) ∧
      (∀ i, au_open none m (some i) fdOk = (.error .nullPath, ⟨false, false⟩)) ∧
      (∀ i, au_open (some []) m (some i) fdOk = (.error .emptyPath, ⟨false, false⟩)) := by
  intro m fdOk
  exact ⟨fun p => rfl, fun i => rfl, fun i => rfl⟩

end LibAudio
